import Mathlib

/-!
# Verification of the zustic query/cache engine

Shallow embedding of the zustic repository's query layer
(src/query/utils.ts, src/query/query.ts, src/query/core `coreFn`,
src/query/index.ts `createApi` utilities), with theorems settling the
frozen claims about caching, tag invalidation, mutations, error
handling and optimistic updates.

JavaScript values are modelled by the inductive type `JVal`; machine
semantics that the source relies on (truthiness, `||`, `??`,
`JSON.stringify`) are modelled explicitly.  Asynchronous code is
sequential in the source (every `await` is a suspension point but the
claims are about one executor run at a time), so `async` functions
become ordinary functions; the two `Date.now()` calls inside one run
are modelled by two explicit time parameters.
-/

/-- Model of a JavaScript value, sufficient for the arguments, data,
errors and request parameters flowing through the query engine. -/
inductive JVal where
  | vUndefined : JVal
  | vNull : JVal
  | vBool : Bool → JVal
  | vNum : Int → JVal
  | vStr : String → JVal
  | vArr : List JVal → JVal
  | vObj : List (String × JVal) → JVal

namespace JVal

/-- JavaScript truthiness: `undefined`, `null`, `false`, `0` and the
empty string are falsy; every other value (including any object or
array) is truthy. -/
def truthy : JVal → Bool
  | .vUndefined => false
  | .vNull => false
  | .vBool b => b
  | .vNum n => n != 0
  | .vStr s => s != ""
  | .vArr _ => true
  | .vObj _ => true

/-- JavaScript `a || b`. -/
def jsOr (a b : JVal) : JVal := if a.truthy then a else b

/-- JavaScript `a ?? b` (nullish coalescing). -/
def jsNullish (a b : JVal) : JVal :=
  match a with
  | .vUndefined => b
  | .vNull => b
  | x => x

/-- Property read `v[k]` on an object; `undefined` otherwise
(approximation of JS property access used only for request params). -/
def objGet (v : JVal) (k : String) : JVal :=
  match v with
  | .vObj fs => match fs.lookup k with
    | some x => x
    | none => .vUndefined
  | _ => .vUndefined

/-- Property write `v[k] = x` on an object (replaces or appends the
field); a no-op on non-objects. -/
def objSet (v : JVal) (k : String) (x : JVal) : JVal :=
  match v with
  | .vObj fs =>
      if fs.any (fun p => p.1 == k) then
        .vObj (fs.map (fun p => if p.1 == k then (k, x) else p))
      else
        .vObj (fs ++ [(k, x)])
  | w => w

/-- Minimal JSON string escaping (backslash and double quote). -/
def jsonQuoteList : List Char → List Char
  | [] => []
  | c :: cs =>
      if c = '"' ∨ c = '\\' then '\\' :: c :: jsonQuoteList cs
      else c :: jsonQuoteList cs

/-- Render a string as a JSON string literal. -/
def jsonQuote (s : String) : String :=
  ⟨'"' :: (jsonQuoteList s.data ++ ['"'])⟩

mutual

/-- Model of `JSON.stringify`: `none` models the JS result
`undefined` (stringifying `undefined` itself). -/
def jsonStr : JVal → Option String
  | .vUndefined => none
  | .vNull => some "null"
  | .vBool true => some "true"
  | .vBool false => some "false"
  | .vNum n => some (toString n)
  | .vStr s => some (jsonQuote s)
  | .vArr es => some ("[" ++ String.intercalate "," (jsonArr es) ++ "]")
  | .vObj fs => some ("\x7b" ++ String.intercalate "," (jsonObj fs) ++ "\x7d")

/-- Array elements: `undefined` members serialize as `null`. -/
def jsonArr : List JVal → List String
  | [] => []
  | v :: vs => (jsonStr v).getD "null" :: jsonArr vs

/-- Object fields: `undefined`-valued fields are omitted. -/
def jsonObj : List (String × JVal) → List String
  | [] => []
  | (k, v) :: fs =>
      match jsonStr v with
      | none => jsonObj fs
      | some s => (jsonQuote k ++ ":" ++ s) :: jsonObj fs

end

end JVal

/-! ## Cache keys and argument serialization (src/query/utils.ts and
the comparison in coreFn) -/

/-- The stringification used by the engine; the call sites below never
pass top-level `undefined`, `"undefined"` models the JS template
rendering if they did. -/
def jsonStringify (v : JVal) : String := (JVal.jsonStr v).getD "undefined"

/-- `createCacheKey(endpoint, arg)` from src/query/utils.ts:
`endpoint + "__" + JSON.stringify(arg ?? \x7b\x7d)`. -/
def createCacheKey (endpoint : String) (arg : JVal) : String :=
  endpoint ++ "__" ++ jsonStringify (arg.jsNullish (.vObj []))

/-- The serialized form the core executor compares arguments with:
`JSON.stringify(x || \x7b\x7d)` (coreFn line 117). -/
def serializeArg (v : JVal) : String := jsonStringify (v.jsOr (.vObj []))

/-! ## Tags (src/query/utils.ts `tagMatches`) -/

/-- A tag id is a string or a number (`id?: string | number`). -/
inductive TagId where
  | s : String → TagId
  | n : Int → TagId
deriving Repr, DecidableEq

/-- A tag is either a bare string or an object `\x7btype, id?\x7d`. -/
inductive Tag where
  | str : String → Tag
  | obj : String → Option TagId → Tag
deriving Repr, DecidableEq

/-- JS falsiness of the optional `id` field: absent (`undefined`),
the empty string, and `0` are falsy — this is the `!invalidTag.id`
check in the source. -/
def tagIdFalsy : Option TagId → Bool
  | none => true
  | some (.s v) => v == ""
  | some (.n v) => v == 0

/-- `tagMatches(invalidTag, queryTag)` from src/query/utils.ts:
string vs string compares by value; object vs object requires equal
`type` and `!invalidTag.id || invalidTag.id === queryTag.id`;
cross-shape comparisons never match. -/
def tagMatches : Tag → Tag → Bool
  | .str a, .str b => a == b
  | .obj t1 i1, .obj t2 i2 => t1 == t2 && (tagIdFalsy i1 || i1 == i2)
  | _, _ => false

/-! ## Cache entry state and endpoint definitions -/

/-- The mutable state of one cache entry (the store created per cache
key in createApi): the fields written by `set` calls in coreFn,
updateQueryData and invalidateTags.  `tags` is `none` while the field
is still `undefined`/`null`. -/
structure EntryState where
  data : JVal
  error : JVal
  isLoading : Bool
  isFetching : Bool
  isSuccess : Bool
  isError : Bool
  arg : JVal
  cashExp : Int
  tags : Option (List Tag)

/-- The initial store state from createApi (`data:null, …, arg:null,
cashExp: 0`; the `tags` field is absent, i.e. `undefined`). -/
def initEntry : EntryState :=
  { data := .vNull, error := .vNull, isLoading := false,
    isFetching := false, isSuccess := false, isError := false,
    arg := .vNull, cashExp := 0, tags := none }

/-- The settled value of `await baseQuery(params)` or
`await def.queryFnc(arg, baseQuery)`: an object whose `data`/`error`
fields may each be absent (`undefined`). -/
structure TransportResult where
  data : JVal
  error : JVal

/-- `providesTags`: a static array of tags, or a function of the
response data (the two shapes coreFn accepts). -/
inductive ProvidesTags where
  | staticList : List Tag → ProvidesTags
  | ofResult : (JVal → List Tag) → ProvidesTags

/-- An endpoint definition as consumed by coreFn.  `queryFn` maps the
argument to transport params (absent when the endpoint was declared
without `query`, in which case calling it throws); `queryFnc` is the
custom override.  The transform hooks are modelled as pure functions
(their `await` is a plain value here).  The effect-only callbacks
`onSuccess`/`onError` never influence the entry state or the result
value and are elided. -/
structure EndpointDef where
  queryFn : Option (JVal → JVal) := none
  queryFnc : Option (JVal → TransportResult) := none
  transformHeader : Option (JVal → JVal) := none
  transformBody : Option (JVal → JVal) := none
  transformResponse : Option (JVal → JVal → JVal) := none
  transformError : Option (JVal → JVal → JVal) := none
  providesTags : Option ProvidesTags := none

/-- Observable calls the executor makes to the outside. -/
inductive CoreEvent where
  | transportCall : JVal → CoreEvent
  | queryFncCall : CoreEvent

/-- The `\x7bdata\x7d | \x7berror\x7d` result shape. -/
inductive QueryResult where
  | data : JVal → QueryResult
  | error : JVal → QueryResult

/-- Outcome of one coreFn run: the intermediate states produced by the
`set` calls before settling (`preStates`, in order), the settled state
(`state`), the returned result, and the external calls made. -/
structure CoreOutcome where
  preStates : List EntryState
  state : EntryState
  result : QueryResult
  events : List CoreEvent

/-! ## The core fetch executor (coreFn) -/

/-- The cache-hit decision of coreFn (lines 112-121): not a refetch,
serialized argument (`JSON.stringify(x || \x7b\x7d)`) unchanged, and
`cashExp >= Date.now()`. -/
def cacheUsable (arg : JVal) (st : EntryState) (isRefetch : Bool)
    (now : Int) : Bool :=
  if isRefetch then false
  else if serializeArg st.arg != serializeArg arg then false
  else st.cashExp ≥ now

/-- Request params built in the non-override branch: `def.queryFn(arg)`
with the optional header/body transforms applied to the corresponding
fields. -/
def buildParams (ep : EndpointDef) (qf : JVal → JVal) (arg : JVal) : JVal :=
  let params := qf arg
  let params := match ep.transformHeader with
    | some th => params.objSet "headers" (th (params.objGet "headers"))
    | none => params
  match ep.transformBody with
  | some tb => params.objSet "body" (tb (params.objGet "body"))
  | none => params

/-- The fetch section of coreFn (lines 124-152).  Returns the `data`
and `error` locals after the section, the entry state (a second
snapshot is pushed when `set(\x7bisFetching:true\x7d)` ran), and the
external calls.  `Except.error` models the thrown `TypeError` when the
taken branch evaluates `def.queryFn(arg)` with `queryFn` absent. -/
def fetchStage (arg : JVal) (st1 : EntryState) (ep : EndpointDef)
    (baseQuery : JVal → TransportResult) (isCash : Bool) :
    Except JVal (JVal × JVal × EntryState × List EntryState × List CoreEvent) :=
  let data0 : JVal := if isCash then st1.data else .vNull
  match isCash, ep.queryFnc with
  | false, some qfc =>
      let st2 := { st1 with isFetching := true }
      let r := qfc arg
      let data1 := if r.data.truthy then r.data else data0
      let err1 := if r.error.truthy then r.error else .vNull
      .ok (data1, err1, st2, [st2], [.queryFncCall])
  | _, _ =>
      match ep.queryFn with
      | none => .error (.vStr "TypeError: def.queryFn is not a function")
      | some qf =>
          let params := buildParams ep qf arg
          if isCash then
            .ok (data0, .vNull, st1, [], [])
          else
            let st2 := { st1 with isFetching := true }
            let r := baseQuery params
            let data1 := if r.data.truthy then r.data else data0
            let err1 := if r.error.truthy then r.error else .vNull
            .ok (data1, err1, st2, [st2], [.transportCall params])

/-- The success-transform block of coreFn (lines 154-163): when `data`
is truthy apply `transformResponse(data, get().data)` if present. -/
def transformData (st0 : EntryState) (ep : EndpointDef) (data1 : JVal) :
    JVal :=
  if data1.truthy then
    match ep.transformResponse with
    | some tr => tr data1 st0.data
    | none => data1
  else data1

/-- The error-transform block of coreFn (lines 165-174): when `error`
is truthy apply `transformError(error, get().error)` if present. -/
def transformErr (st0 : EntryState) (ep : EndpointDef) (err1 : JVal) :
    JVal :=
  if err1.truthy then
    match ep.transformError with
    | some te => te err1 st0.error
    | none => err1
  else err1

/-- Tag computation on the success path (coreFn lines 176-185). -/
def computeTags (ep : EndpointDef) (data : JVal) : Option (List Tag) :=
  match ep.providesTags with
  | some (.ofResult f) => some (f data)
  | some (.staticList l) => some l
  | none => none

/-- The success-path `set` (coreFn lines 187-195).  Note: `isError` and
`error` are not among the written fields and keep their values. -/
def settleSuccess (st : EntryState) (data arg : JVal) (isCash : Bool)
    (cashTime cashTimeout now2 : Int) (tags : Option (List Tag)) :
    EntryState :=
  { st with data := data, isSuccess := true, isLoading := false,
            isFetching := false,
            cashExp := if isCash then cashTime else now2 + cashTimeout,
            arg := arg, tags := tags }

/-- The error-path / catch-path `set` (coreFn lines 198-205, 208-215).
Note: `data`, `tags` and `cashExp` are not written and keep their
values. -/
def settleError (st : EntryState) (err arg : JVal) : EntryState :=
  { st with isLoading := false, isSuccess := false, isFetching := false,
            isError := true, error := err, arg := arg }

/-- The core query executor `coreFn(arg, set, get, def, baseQuery,
cashTimeout, isRefetch)` from the source, with the two `Date.now()`
reads modelled by `now` (cache check, line 113) and `now2` (expiry
computation, line 192). -/
def coreFn (arg : JVal) (st0 : EntryState) (ep : EndpointDef)
    (baseQuery : JVal → TransportResult) (cashTimeout : Int)
    (isRefetch : Bool) (now now2 : Int) : CoreOutcome :=
  let st1 := { st0 with isLoading := true }
  let cashTime := st1.cashExp
  let isCash := cacheUsable arg st1 isRefetch now
  match fetchStage arg st1 ep baseQuery isCash with
  | .error exn =>
      { preStates := [st1], state := settleError st1 exn arg,
        result := .error exn, events := [] }
  | .ok (data1, err1, stMid, snaps, evs) =>
      let data2 := transformData st1 ep data1
      let err2 := transformErr st1 ep err1
      if data2.truthy then
        let tags := computeTags ep data2
        { preStates := st1 :: snaps,
          state := settleSuccess stMid data2 arg isCash cashTime
                     cashTimeout now2 tags,
          result := .data data2, events := evs }
      else
        { preStates := st1 :: snaps,
          state := settleError stMid err2 arg,
          result := .error err2, events := evs }

/-- A mutation's `invoke` (createApi, mutation branch): the stored
`query` closure calls the pipeline with cache timeout `0` and
`isRefetch = false`. -/
def mutationInvoke (arg : JVal) (st0 : EntryState) (ep : EndpointDef)
    (baseQuery : JVal → TransportResult) (now now2 : Int) : CoreOutcome :=
  coreFn arg st0 ep baseQuery 0 false now now2

/-! ## The middleware runner of queryFn (src/query/query.ts lines 44-59)

A middleware receives `(ctx, next)`; its interaction with the runner is
modelled by how often it calls `next`: exactly once and returning its
value (`passThrough`), never (`shortCircuit`), or twice
(`callTwice`, returning the second call's value).  The runner keeps the
monotonic cursor `index` (initially `-1`); `runner(i)` first checks
`i <= index` and throws `Error("next() called multiple times")`, else
sets `index = i` and either dispatches `middlewares[i]` or, past the
end of the chain, calls coreFn.  The recursion is over the suffix of
the chain, with `i` the absolute position, so `rest` here is
`middlewares.drop i`. -/
inductive MwBehavior where
  | passThrough : MwBehavior
  | shortCircuit : QueryResult → MwBehavior
  | callTwice : MwBehavior

/-- `runner(i)` with chain suffix `rest`, cursor value `index`; returns
the result together with the final cursor, or `Except.error` for the
thrown `Error`. -/
def runnerAux (core : QueryResult) :
    List MwBehavior → Nat → Int → Except String (QueryResult × Int)
  | rest, i, index =>
    if (i : Int) ≤ index then .error "next() called multiple times"
    else
      match rest with
      | [] => .ok (core, (i : Int))
      | mw :: rest1 =>
        match mw with
        | .passThrough => runnerAux core rest1 (i + 1) (i : Int)
        | .shortCircuit r => .ok (r, (i : Int))
        | .callTwice =>
            match runnerAux core rest1 (i + 1) (i : Int) with
            | .error m => .error m
            | .ok p => runnerAux core rest1 (i + 1) p.2

/-- The middleware section of `queryFn`: `await runner(0)` with the
cursor starting at `-1`; `core` is the result coreFn would produce at
the end of the chain.  An `Except.error` is an exception propagating
out of queryFn (there is no catch around the chain), never converted
into the result shape. -/
def runMiddlewareChain (mws : List MwBehavior) (core : QueryResult) :
    Except String QueryResult :=
  (runnerAux core mws 0 (-1)).map Prod.fst

/-- The run reaches a middleware that calls `next()` twice: every
middleware before it passes through. -/
inductive ReachesCallTwice : List MwBehavior → Prop where
  | here (rest : List MwBehavior) : ReachesCallTwice (.callTwice :: rest)
  | there (rest : List MwBehavior) :
      ReachesCallTwice rest → ReachesCallTwice (.passThrough :: rest)

/-! ## Registry-level utilities (createApi: invalidateTags,
updateQueryData)

The `actions` map of createApi is modelled as a list of entries
(cache key together with the entry's store state).  Executing a
triggered `reFetch` is itself a pipeline run; here the registry
operations report which refetches they trigger as `RefetchCall`
values (the entry's key and the `get().arg` the stored `reFetch`
closure uses, which runs the pipeline with `isRefetch = true`). -/
structure RegEntry where
  key : String
  state : EntryState

/-- A triggered `reFetch` on one entry: runs with the entry's stored
last argument and `isRefetch = true`. -/
structure RefetchCall where
  key : String
  arg : JVal

/-- `tags.some(invalidTag => queryTags.some(queryTag =>
tagMatches(invalidTag, queryTag)))` with
`queryTags = state?.tags || []`. -/
def shouldInvalidate (ts : List Tag) (st : EntryState) : Bool :=
  ts.any fun it => (st.tags.getD []).any fun qt => tagMatches it qt

/-- The loop body of invalidateTags for one entry: on a match,
`action.set(\x7bcashExp: 0\x7d)` followed by `state?.reFetch?.()`. -/
def invalidateEntry (ts : List Tag) (e : RegEntry) :
    RegEntry × List RefetchCall :=
  if shouldInvalidate ts e.state then
    ({ e with state := { e.state with cashExp := 0 } },
     [{ key := e.key, arg := e.state.arg }])
  else (e, [])

/-- `invalidateTags(tags)` from createApi: returns without doing
anything when `tags` is absent or empty, otherwise applies
`invalidateEntry` to every registered entry. -/
def invalidateTags (tags : Option (List Tag)) (reg : List RegEntry) :
    List RegEntry × List RefetchCall :=
  match tags with
  | none => (reg, [])
  | some ts =>
    if ts.length = 0 then (reg, [])
    else (reg.map fun e => (invalidateEntry ts e).1,
          reg.flatMap fun e => (invalidateEntry ts e).2)

/-- The patch updateQueryData applies to the found entry:
`action.set(\x7bdata: updater(action.get()?.data)\x7d)` — a merge that
writes only the `data` field. -/
def patchData (updater : JVal → JVal) (e : RegEntry) : RegEntry :=
  { e with state := { e.state with data := updater e.state.data } }

/-- `updateQueryData(key, arg, updater)` from createApi: look up the
entry under `createCacheKey(key, arg)`; if absent return unchanged,
else patch that entry's `data`.  The empty `RefetchCall` list records
that no fetch of any kind is triggered. -/
def updateQueryData (key : String) (arg : JVal) (updater : JVal → JVal)
    (reg : List RegEntry) : List RegEntry × List RefetchCall :=
  if reg.any (fun e => e.key == createCacheKey key arg) then
    (reg.map fun e =>
       if e.key == createCacheKey key arg then patchData updater e else e,
     [])
  else (reg, [])

/-! ## Spec-side predicates (written from the claims' words, for
comparison with the source definitions) -/

/-- C2's matching rule as claimed: both strings and equal, or both
objects with equal type where the invalidation tag either omits `id`
or has an `id` equal to the query tag's. -/
def tagMatchesClaim : Tag → Tag → Bool
  | .str a, .str b => a == b
  | .obj t1 i1, .obj t2 i2 => t1 == t2 && (i1 == none || i1 == i2)
  | _, _ => false

/-- The amended matching rule: as claimed, except that a present but
falsy `id` (empty string or `0`) on the invalidation tag also acts as
a wildcard. -/
def tagMatchesAmendedProp (a b : Tag) : Prop :=
  (∃ s, a = .str s ∧ b = .str s) ∨
  (∃ t i1 i2, a = .obj t i1 ∧ b = .obj t i2 ∧
    (tagIdFalsy i1 = true ∨ i1 = i2))

/-! # Theorems settling the claims -/

/-! ## C2: tag matching -/

/-- C2 counterexample: the claim states that an object invalidation tag
with a present `id` matches only on equal ids, but the source's
`!invalidTag.id` check treats a present-but-falsy id (here the empty
string) as a wildcard: `tagMatches(\x7btype:"users", id:""\x7d,
\x7btype:"users", id:"2"\x7d)` is `true` while the claimed rule says
`false`. -/
theorem tagMatches_falsy_id_counterexample :
    tagMatches (.obj "users" (some (.s ""))) (.obj "users" (some (.s "2"))) = true ∧
    tagMatchesClaim (.obj "users" (some (.s ""))) (.obj "users" (some (.s "2"))) = false := by
  decide

/-- C2 (amended): tagMatches(invalidTag, queryTag) returns true iff
either both tags are strings and equal, or both are objects with equal
type where the invalidation tag's id is absent or falsy (empty string
or 0) or equal to the query tag's id; a string tag never matches an
object tag in either direction.  The claim's four cited examples hold
as stated. -/
theorem tagMatches_characterization :
    (∀ a b : Tag, tagMatches a b = true ↔ tagMatchesAmendedProp a b) ∧
    tagMatches (.str "users") (.str "users") = true ∧
    tagMatches (.obj "users" none) (.obj "users" (some (.s "2"))) = true ∧
    tagMatches (.obj "users" (some (.s "1"))) (.obj "users" (some (.s "2"))) = false ∧
    tagMatches (.str "users") (.obj "users" none) = false := by
  refine ⟨?_, by decide, by decide, by decide, by decide⟩
  intro a b
  cases a with
  | str s1 =>
    cases b with
    | str s2 =>
      simp only [tagMatches, beq_iff_eq, tagMatchesAmendedProp]
      constructor
      · rintro rfl
        exact Or.inl ⟨s1, rfl, rfl⟩
      · rintro (⟨s, h1, h2⟩ | ⟨t, j1, j2, h1, h2, h⟩)
        · injection h1 with e1
          injection h2 with e2
          subst e1; subst e2; rfl
        · exact Tag.noConfusion h1
    | obj t2 i2 =>
      simp only [tagMatches, tagMatchesAmendedProp]
      constructor
      · intro h; exact absurd h (by simp)
      · rintro (⟨s, h1, h2⟩ | ⟨t, j1, j2, h1, h2, h⟩)
        · exact Tag.noConfusion h2
        · exact Tag.noConfusion h1
  | obj t1 i1 =>
    cases b with
    | str s2 =>
      simp only [tagMatches, tagMatchesAmendedProp]
      constructor
      · intro h; exact absurd h (by simp)
      · rintro (⟨s, h1, h2⟩ | ⟨t, j1, j2, h1, h2, h⟩)
        · exact Tag.noConfusion h1
        · exact Tag.noConfusion h2
    | obj t2 i2 =>
      simp only [tagMatches, Bool.and_eq_true, beq_iff_eq, Bool.or_eq_true,
        tagMatchesAmendedProp]
      constructor
      · rintro ⟨rfl, h⟩
        exact Or.inr ⟨t1, i1, i2, rfl, rfl, h⟩
      · rintro (⟨s, h1, h2⟩ | ⟨t, j1, j2, h1, h2, h⟩)
        · exact Tag.noConfusion h1
        · injection h1 with ht1 hi1
          injection h2 with ht2 hi2
          subst ht1; subst hi1; subst ht2; subst hi2
          exact ⟨rfl, h⟩

/-! ## C10: cache keys -/

/-- C10: `createCacheKey(endpoint, arg)` is the endpoint name, `"__"`,
then `JSON.stringify(arg ?? \x7b\x7d)`; since `undefined ?? \x7b\x7d`,
`null ?? \x7b\x7d` and `\x7b\x7d` all serialize to the same string,
a query invoked with no argument, with null, or with an empty object
resolves to the same cache entry. -/
theorem createCacheKey_characterization :
    (∀ (name : String) (arg : JVal),
      createCacheKey name arg =
        name ++ "__" ++ jsonStringify (arg.jsNullish (.vObj []))) ∧
    (∀ name : String,
      createCacheKey name .vUndefined = name ++ "__" ++ "\x7b\x7d" ∧
      createCacheKey name .vNull = createCacheKey name .vUndefined ∧
      createCacheKey name (.vObj []) = createCacheKey name .vUndefined) :=
  ⟨fun _ _ => rfl, fun _ => ⟨rfl, rfl, rfl⟩⟩

/-! ## C7: the middleware runner and double next() -/

/-- The runner's only error is the double-next error. -/
theorem runnerAux_error_msg (core : QueryResult) :
    ∀ (rest : List MwBehavior) (i : Nat) (index : Int) (m : String),
      runnerAux core rest i index = Except.error m →
      m = "next() called multiple times" := by
  intro rest
  induction rest with
  | nil =>
    intro i index m h
    unfold runnerAux at h
    split at h
    · exact (Except.error.inj h).symm
    · exact Except.noConfusion h
  | cons mw rest1 ih =>
    intro i index m h
    unfold runnerAux at h
    split at h
    · exact (Except.error.inj h).symm
    · cases mw with
      | passThrough => exact ih _ _ _ h
      | shortCircuit r => exact Except.noConfusion h
      | callTwice =>
        have h2 : (match runnerAux core rest1 (i + 1) (i : Int) with
            | Except.error m1 => Except.error m1
            | Except.ok p => runnerAux core rest1 (i + 1) p.2) =
            Except.error m := h
        cases h1 : runnerAux core rest1 (i + 1) (i : Int) with
        | error m1 =>
          rw [h1] at h2
          have h3 : Except.error (ε := String) (α := QueryResult × Int) m1 =
              Except.error m := h2
          have hm : m1 = m := Except.error.inj h3
          exact hm ▸ ih _ _ _ h1
        | ok p =>
          rw [h1] at h2
          have h3 : runnerAux core rest1 (i + 1) p.2 = Except.error m := h2
          exact ih _ _ _ h3

/-- When the runner returns normally, the final cursor is at least the
entry position. -/
theorem runnerAux_index_le (core : QueryResult) :
    ∀ (rest : List MwBehavior) (i : Nat) (index : Int) (r : QueryResult)
      (idx2 : Int),
      runnerAux core rest i index = Except.ok (r, idx2) → (i : Int) ≤ idx2 := by
  intro rest
  induction rest with
  | nil =>
    intro i index r idx2 h
    unfold runnerAux at h
    split at h
    · exact Except.noConfusion h
    · cases h
      exact le_refl _
  | cons mw rest1 ih =>
    intro i index r idx2 h
    unfold runnerAux at h
    split at h
    · exact Except.noConfusion h
    · cases mw with
      | passThrough =>
        have h4 := ih (i + 1) (i : Int) r idx2 h
        have h5 : ((i + 1 : Nat) : Int) = (i : Int) + 1 := by push_cast; ring
        omega
      | shortCircuit r1 =>
        cases h
        exact le_refl _
      | callTwice =>
        have h2 : (match runnerAux core rest1 (i + 1) (i : Int) with
            | Except.error m1 => Except.error m1
            | Except.ok p => runnerAux core rest1 (i + 1) p.2) =
            Except.ok (r, idx2) := h
        cases h1 : runnerAux core rest1 (i + 1) (i : Int) with
        | error m1 =>
          rw [h1] at h2
          have h3 : Except.error (ε := String) (α := QueryResult × Int) m1 =
              Except.ok (r, idx2) := h2
          exact Except.noConfusion h3
        | ok p =>
          rw [h1] at h2
          have h3 : runnerAux core rest1 (i + 1) p.2 = Except.ok (r, idx2) := h2
          have h4 := ih (i + 1) p.2 r idx2 h3
          have h5 : ((i + 1 : Nat) : Int) = (i : Int) + 1 := by push_cast; ring
          omega

/-- Reaching a double-next middleware makes the runner throw. -/
theorem runnerAux_reaches_error (core : QueryResult) :
    ∀ (rest : List MwBehavior), ReachesCallTwice rest →
      ∀ (i : Nat) (index : Int), ¬ (i : Int) ≤ index →
      runnerAux core rest i index =
        Except.error "next() called multiple times" := by
  intro rest hr
  induction hr with
  | here rest1 =>
    intro i index hix
    unfold runnerAux
    rw [if_neg hix]
    show (match runnerAux core rest1 (i + 1) (i : Int) with
        | Except.error m1 => Except.error m1
        | Except.ok p => runnerAux core rest1 (i + 1) p.2) =
        Except.error "next() called multiple times"
    cases h1 : runnerAux core rest1 (i + 1) (i : Int) with
    | error m1 =>
      have hm := runnerAux_error_msg core rest1 (i + 1) (i : Int) m1 h1
      simp [hm]
    | ok p =>
      have hle := runnerAux_index_le core rest1 (i + 1) (i : Int) p.1 p.2
        (by rw [h1])
      have h2 : runnerAux core rest1 (i + 1) p.2 =
          Except.error "next() called multiple times" := by
        unfold runnerAux
        rw [if_pos hle]
      simp [h2]
  | there rest1 hr1 ih =>
    intro i index hix
    unfold runnerAux
    rw [if_neg hix]
    show runnerAux core rest1 (i + 1) (i : Int) =
        Except.error "next() called multiple times"
    exact ih (i + 1) (i : Int) (by push_cast; omega)

/-- C7: if a middleware calls its `next()` continuation more than once,
the runner throws `Error("next() called multiple times")` on the second
call; the exception propagates out of queryFn (the chain is not wrapped
in any catch) and is an `Except.error`, never an `Except.ok` carrying
the `{error}` result shape. -/
theorem middleware_double_next_fatal (mws : List MwBehavior)
    (core : QueryResult) (h : ReachesCallTwice mws) :
    runMiddlewareChain mws core =
      Except.error "next() called multiple times" := by
  unfold runMiddlewareChain
  rw [runnerAux_reaches_error core mws h 0 (-1) (by omega)]
  rfl

/-- C7 witness: a one-middleware chain whose middleware calls `next()`
twice makes the whole pipeline run fail fatally. -/
theorem middleware_double_next_fatal_witness :
    runMiddlewareChain [MwBehavior.callTwice] (QueryResult.data (.vNum 1)) =
      Except.error "next() called multiple times" :=
  middleware_double_next_fatal _ _ (ReachesCallTwice.here _)

/-! ## C3: tag invalidation -/

/-- C3: invalidateTags(tags) returns without doing anything when `tags`
is absent or empty; otherwise every registered query cache entry is
processed independently: an entry one of whose stored provided tags
matches some invalidation tag has its cache expiry forced to `0`
(strictly in the past of any positive clock value) and triggers exactly
one refetch carrying the entry's stored last argument, while an entry
with no matching tag is left untouched and triggers nothing. -/
theorem invalidateTags_spec :
    (∀ reg, invalidateTags none reg = (reg, [])) ∧
    (∀ reg, invalidateTags (some []) reg = (reg, [])) ∧
    (∀ (ts : List Tag) (reg : List RegEntry), ts ≠ [] →
      invalidateTags (some ts) reg =
        (reg.map fun e => (invalidateEntry ts e).1,
         reg.flatMap fun e => (invalidateEntry ts e).2)) ∧
    (∀ (ts : List Tag) (e : RegEntry),
      (shouldInvalidate ts e.state = true →
        invalidateEntry ts e =
          ({ e with state := { e.state with cashExp := 0 } },
           [{ key := e.key, arg := e.state.arg }]) ∧
        (∀ now : Int, 0 < now →
          ((invalidateEntry ts e).1).state.cashExp < now)) ∧
      (shouldInvalidate ts e.state = false →
        invalidateEntry ts e = (e, []))) := by
  refine ⟨fun reg => rfl, fun reg => rfl, ?_, ?_⟩
  · intro ts reg hts
    show (if ts.length = 0 then (reg, []) else
      (reg.map fun e => (invalidateEntry ts e).1,
       reg.flatMap fun e => (invalidateEntry ts e).2)) = _
    rw [if_neg (by simpa [List.length_eq_zero] using hts)]
  · intro ts e
    constructor
    · intro hm
      have h1 : invalidateEntry ts e =
          ({ e with state := { e.state with cashExp := 0 } },
           [{ key := e.key, arg := e.state.arg }]) := by
        unfold invalidateEntry
        rw [if_pos hm]
      refine ⟨h1, ?_⟩
      intro now hnow
      rw [h1]
      simpa using hnow
    · intro hm
      unfold invalidateEntry
      rw [if_neg (by simp [hm])]

/-- C3 witness: with one entry tagged `["users"]` and one tagged
`["posts"]`, invalidating `["users"]` expires the first (its new expiry
is below a positive clock) with one refetch carrying its argument, and
leaves the second untouched. -/
theorem invalidateTags_spec_witness :
    (let eU : RegEntry :=
       { key := "getUsers__\x7b\x7d",
         state := { initEntry with
           tags := some [Tag.str "users"],
           arg := .vObj [("page", .vNum 1)],
           cashExp := 900 } };
     let eP : RegEntry :=
       { key := "getPosts__\x7b\x7d",
         state := { initEntry with
           tags := some [Tag.str "posts"],
           cashExp := 900 } };
     invalidateEntry [Tag.str "users"] eU =
        ({ eU with state := { eU.state with cashExp := 0 } },
         [{ key := eU.key, arg := eU.state.arg }]) ∧
     ((invalidateEntry [Tag.str "users"] eU).1).state.cashExp < 1000 ∧
     invalidateEntry [Tag.str "users"] eP = (eP, [])) := by
  refine ⟨?_, ?_, ?_⟩
  · exact ((invalidateTags_spec.2.2.2 _ _).1 (by decide)).1
  · exact ((invalidateTags_spec.2.2.2 _ _).1 (by decide)).2 1000 (by norm_num)
  · exact (invalidateTags_spec.2.2.2 _ _).2 (by decide)

/-! ## C8: optimistic cache patch -/

/-- C8: updateQueryData(name, arg, updater) rewrites only the `data`
field of the entry keyed by `createCacheKey(name, arg)` to
`updater(currentData)`; the patch preserves every other field of that
entry, entries under any other key map to themselves, the call is a
no-op when no entry has that key, and no fetch of any kind is
triggered (the second component — the triggered-refetch list — is
always empty). -/
theorem updateQueryData_spec :
    (∀ (updater : JVal → JVal) (e : RegEntry),
      (patchData updater e).state.data = updater e.state.data ∧
      (patchData updater e).key = e.key ∧
      (patchData updater e).state.error = e.state.error ∧
      (patchData updater e).state.isLoading = e.state.isLoading ∧
      (patchData updater e).state.isFetching = e.state.isFetching ∧
      (patchData updater e).state.isSuccess = e.state.isSuccess ∧
      (patchData updater e).state.isError = e.state.isError ∧
      (patchData updater e).state.arg = e.state.arg ∧
      (patchData updater e).state.cashExp = e.state.cashExp ∧
      (patchData updater e).state.tags = e.state.tags) ∧
    (∀ (key : String) (arg : JVal) (updater : JVal → JVal)
       (reg : List RegEntry),
      (updateQueryData key arg updater reg).2 = []) ∧
    (∀ (key : String) (arg : JVal) (updater : JVal → JVal)
       (reg : List RegEntry),
      reg.any (fun e => e.key == createCacheKey key arg) = false →
      updateQueryData key arg updater reg = (reg, [])) ∧
    (∀ (key : String) (arg : JVal) (updater : JVal → JVal)
       (reg : List RegEntry),
      (updateQueryData key arg updater reg).1 =
        reg.map fun e =>
          if e.key == createCacheKey key arg then patchData updater e
          else e) := by
  refine ⟨fun updater e =>
      ⟨rfl, rfl, rfl, rfl, rfl, rfl, rfl, rfl, rfl, rfl⟩, ?_, ?_, ?_⟩
  · intro key arg updater reg
    unfold updateQueryData
    split
    · rfl
    · rfl
  · intro key arg updater reg h
    unfold updateQueryData
    rw [if_neg (by simp [h])]
  · intro key arg updater reg
    unfold updateQueryData
    split
    · rfl
    · rename_i hfail
      have hall : ∀ e ∈ reg, (e.key == createCacheKey key arg) = false := by
        intro e he
        by_contra hc
        exact hfail (List.any_eq_true.mpr ⟨e, he, by simpa using hc⟩)
      have hmap : ∀ (l : List RegEntry),
          (∀ e ∈ l, (e.key == createCacheKey key arg) = false) →
          (l.map fun e =>
            if e.key == createCacheKey key arg then patchData updater e
            else e) = l := by
        intro l
        induction l with
        | nil => intro _; rfl
        | cons x xs ih =>
          intro hl
          simp only [List.map_cons]
          rw [if_neg (by simp [hl x (by simp)]),
            ih (fun e he => hl e (by simp [he]))]
      exact (hmap reg hall).symm

/-- C8 witness: patching an existing entry rewrites it via `patchData`
(with expiry untouched), and a key with no entry is a no-op. -/
theorem updateQueryData_spec_witness :
    (let e1 : RegEntry :=
       { key := createCacheKey "getUser" (.vObj [("id", .vNum 1)]),
         state := { initEntry with data := .vNum 1, cashExp := 50 } };
     updateQueryData "getOther" JVal.vNull (fun d => d) [e1] = ([e1], []) ∧
     (updateQueryData "getUser" (.vObj [("id", .vNum 1)])
        (fun _ => .vNum 2) [e1]).1 = [patchData (fun _ => .vNum 2) e1] ∧
     (patchData (fun _ => .vNum 2) e1).state.cashExp = e1.state.cashExp) := by
  refine ⟨?_, ?_, ?_⟩
  · exact updateQueryData_spec.2.2.1 "getOther" JVal.vNull _ _ (by decide)
  · rw [updateQueryData_spec.2.2.2 "getUser" (.vObj [("id", .vNum 1)])
      (fun _ => .vNum 2) _]
    rw [List.map_cons, List.map_nil, if_pos]
    rfl
  · exact (updateQueryData_spec.1 (fun _ => .vNum 2) _).2.2.2.2.2.2.2.2.1

/-! ## Helper lemmas about the core executor -/

/-- The cache decision, as a proposition (non-refetch runs). -/
theorem cacheUsable_eq_true_iff (arg : JVal) (st : EntryState) (now : Int) :
    cacheUsable arg st false now = true ↔
      (serializeArg st.arg = serializeArg arg ∧ now ≤ st.cashExp) := by
  unfold cacheUsable
  by_cases hs : serializeArg st.arg = serializeArg arg
  · simp [hs]
  · simp [hs]

/-- An expired (or never-written) entry can never serve the cache. -/
theorem cacheUsable_expired (arg : JVal) (st : EntryState) (now : Int)
    (h0 : st.cashExp < now) (r : Bool) :
    cacheUsable arg st r now = false := by
  unfold cacheUsable
  cases r
  · by_cases hs : serializeArg st.arg = serializeArg arg
    · simp [hs]
      omega
    · simp [hs]
  · simp

/-- The fetch section on a cache miss, standard endpoint (no custom
override, `queryFn` present): sets `isFetching`, calls the transport
once on the built params. -/
theorem fetchStage_miss_std (arg : JVal) (st1 : EntryState)
    (ep : EndpointDef) (bq : JVal → TransportResult) (qf : JVal → JVal)
    (hc : ep.queryFnc = none) (hf : ep.queryFn = some qf) :
    fetchStage arg st1 ep bq false =
      Except.ok
        ((if (bq (buildParams ep qf arg)).data.truthy
            then (bq (buildParams ep qf arg)).data else JVal.vNull),
         (if (bq (buildParams ep qf arg)).error.truthy
            then (bq (buildParams ep qf arg)).error else JVal.vNull),
         { st1 with isFetching := true },
         [{ st1 with isFetching := true }],
         [CoreEvent.transportCall (buildParams ep qf arg)]) := by
  unfold fetchStage
  simp [hc, hf]

/-- The fetch section on a cache miss with a custom `queryFnc`
override: sets `isFetching`, calls the override, never the transport
directly. -/
theorem fetchStage_miss_custom (arg : JVal) (st1 : EntryState)
    (ep : EndpointDef) (bq : JVal → TransportResult)
    (qfc : JVal → TransportResult) (hc : ep.queryFnc = some qfc) :
    fetchStage arg st1 ep bq false =
      Except.ok
        ((if (qfc arg).data.truthy then (qfc arg).data else JVal.vNull),
         (if (qfc arg).error.truthy then (qfc arg).error else JVal.vNull),
         { st1 with isFetching := true },
         [{ st1 with isFetching := true }],
         [CoreEvent.queryFncCall]) := by
  unfold fetchStage
  simp [hc]

/-- The fetch section on a cache hit, standard endpoint: reuses the
stored data; no snapshot, no external call. -/
theorem fetchStage_hit_std (arg : JVal) (st1 : EntryState)
    (ep : EndpointDef) (bq : JVal → TransportResult) (qf : JVal → JVal)
    (hf : ep.queryFn = some qf) :
    fetchStage arg st1 ep bq true =
      Except.ok (st1.data, JVal.vNull, st1, [], []) := by
  unfold fetchStage
  cases hqc : ep.queryFnc <;> simp [hf, hqc]

/-- The branch of the fetch section that evaluates `def.queryFn(arg)`
throws when `queryFn` is absent. -/
theorem fetchStage_noqf (arg : JVal) (st1 : EntryState)
    (ep : EndpointDef) (bq : JVal → TransportResult) (isCash : Bool)
    (hf : ep.queryFn = none)
    (h2 : ep.queryFnc = none ∨ isCash = true) :
    fetchStage arg st1 ep bq isCash =
      Except.error (.vStr "TypeError: def.queryFn is not a function") := by
  unfold fetchStage
  rcases h2 with h2 | h2
  · rw [h2]
    cases isCash <;> simp [hf]
  · subst h2
    cases hqc : ep.queryFnc <;> simp [hf, hqc]

/-- Any normal return of the fetch section leaves the entry either
untouched or with only `isFetching` set, and ditto for its snapshot
list. -/
theorem fetchStage_shape (arg : JVal) (st1 : EntryState)
    (ep : EndpointDef) (bq : JVal → TransportResult) (isCash : Bool) :
    ∀ d e stMid snaps evs,
      fetchStage arg st1 ep bq isCash = Except.ok (d, e, stMid, snaps, evs) →
      (stMid = st1 ∨ stMid = { st1 with isFetching := true }) ∧
      (snaps = [] ∨ snaps = [{ st1 with isFetching := true }]) := by
  intro d e stMid snaps evs h
  cases hC : isCash with
  | false =>
    subst hC
    cases hqc : ep.queryFnc with
    | some qfc =>
      rw [fetchStage_miss_custom arg st1 ep bq qfc hqc] at h
      cases h
      exact ⟨Or.inr rfl, Or.inr rfl⟩
    | none =>
      cases hqf : ep.queryFn with
      | none =>
        rw [fetchStage_noqf arg st1 ep bq false hqf (Or.inl hqc)] at h
        exact Except.noConfusion h
      | some qf =>
        rw [fetchStage_miss_std arg st1 ep bq qf hqc hqf] at h
        cases h
        exact ⟨Or.inr rfl, Or.inr rfl⟩
  | true =>
    subst hC
    cases hqf : ep.queryFn with
    | none =>
      rw [fetchStage_noqf arg st1 ep bq true hqf (Or.inr rfl)] at h
      exact Except.noConfusion h
    | some qf =>
      rw [fetchStage_hit_std arg st1 ep bq qf hqf] at h
      cases h
      exact ⟨Or.inl rfl, Or.inl rfl⟩

/-- Evaluation helper: `null` is falsy. -/
theorem truthy_vNull : JVal.truthy .vNull = false := rfl

/-- Evaluation helper: `undefined` is falsy. -/
theorem truthy_vUndefined : JVal.truthy .vUndefined = false := rfl

/-! ## C9: falsy data is treated as no data -/

/-- C9: on a cache miss, if the transport (first part) or a custom
`queryFnc` override (second part) resolves with a falsy `data` value
(0, empty string, false, null — and no truthy error), the `if(d)`
guard never assigns it: the executor settles on the error branch with
`isError = true` and `error = null`, returns `\x7berror: null\x7d`,
and the falsy value is never stored (`data` keeps its previous
value). -/
theorem falsy_data_settles_error :
    (∀ (arg : JVal) (st0 : EntryState) (ep : EndpointDef)
        (bq : JVal → TransportResult) (cT : Int) (isR : Bool)
        (now now2 : Int) (qf : JVal → JVal),
      ep.queryFnc = none → ep.queryFn = some qf →
      cacheUsable arg { st0 with isLoading := true } isR now = false →
      (bq (buildParams ep qf arg)).data.truthy = false →
      (bq (buildParams ep qf arg)).error.truthy = false →
      (coreFn arg st0 ep bq cT isR now now2).result = .error .vNull ∧
      (coreFn arg st0 ep bq cT isR now now2).state.isError = true ∧
      (coreFn arg st0 ep bq cT isR now now2).state.isSuccess = false ∧
      (coreFn arg st0 ep bq cT isR now now2).state.error = .vNull ∧
      (coreFn arg st0 ep bq cT isR now now2).state.data = st0.data) ∧
    (∀ (arg : JVal) (st0 : EntryState) (ep : EndpointDef)
        (bq : JVal → TransportResult) (cT : Int) (isR : Bool)
        (now now2 : Int) (qfc : JVal → TransportResult),
      ep.queryFnc = some qfc →
      cacheUsable arg { st0 with isLoading := true } isR now = false →
      (qfc arg).data.truthy = false →
      (qfc arg).error.truthy = false →
      (coreFn arg st0 ep bq cT isR now now2).result = .error .vNull ∧
      (coreFn arg st0 ep bq cT isR now now2).state.isError = true ∧
      (coreFn arg st0 ep bq cT isR now now2).state.isSuccess = false ∧
      (coreFn arg st0 ep bq cT isR now now2).state.error = .vNull ∧
      (coreFn arg st0 ep bq cT isR now now2).state.data = st0.data) := by
  constructor
  · intro arg st0 ep bq cT isR now now2 qf hc hf hmiss hd he
    simp only [coreFn]
    rw [hmiss, fetchStage_miss_std arg _ ep bq qf hc hf]
    simp [hd, he, transformData, transformErr, settleError, truthy_vNull]
  · intro arg st0 ep bq cT isR now now2 qfc hc hmiss hd he
    simp only [coreFn]
    rw [hmiss, fetchStage_miss_custom arg _ ep bq qfc hc]
    simp [hd, he, transformData, transformErr, settleError, truthy_vNull]

/-- C9 witness: a transport answering `\x7bdata: 0\x7d` on a fresh
entry settles the error branch with `error = null` and stores no
data. -/
theorem falsy_data_settles_error_witness :
    ((coreFn (.vObj [("id", .vNum 1)]) initEntry
        { queryFn := some fun _ => .vStr "/x" }
        (fun _ => { data := .vNum 0, error := .vUndefined })
        30000 false 5 6).result = .error .vNull ∧
     (coreFn (.vObj [("id", .vNum 1)]) initEntry
        { queryFn := some fun _ => .vStr "/x" }
        (fun _ => { data := .vNum 0, error := .vUndefined })
        30000 false 5 6).state.isError = true ∧
     (coreFn (.vObj [("id", .vNum 1)]) initEntry
        { queryFn := some fun _ => .vStr "/x" }
        (fun _ => { data := .vNum 0, error := .vUndefined })
        30000 false 5 6).state.data = JVal.vNull) := by
  have h := falsy_data_settles_error.1 (.vObj [("id", .vNum 1)]) initEntry
    { queryFn := some fun _ => .vStr "/x" }
    (fun _ => { data := .vNum 0, error := .vUndefined })
    30000 false 5 6 (fun _ => .vStr "/x") rfl rfl (by decide) rfl rfl
  exact ⟨h.1, h.2.1, h.2.2.2.2⟩

/-! ## C5: settled-flag exclusivity -/

/-- C5 counterexample: the success-path `set` does not clear `isError`.
After an errored run followed by a successful run of the same entry,
the settled state has `isSuccess = true` and `isError = true`
simultaneously, and the in-flight snapshots of the second run still
carry `isError = true` — refuting both the settled XOR and the
both-false-in-flight parts of the claim. -/
theorem settled_flags_xor_counterexample :
    (let ep : EndpointDef := { queryFn := some fun _ => .vStr "/u" };
     let arg := JVal.vObj [("id", .vNum 1)];
     let r1 := coreFn arg initEntry ep
       (fun _ => { data := .vUndefined, error := .vStr "E" }) 1000 false 5 6;
     let r2 := coreFn arg r1.state ep
       (fun _ => { data := .vNum 3, error := .vUndefined }) 1000 false 7 8;
     r1.state.isError = true ∧
     r2.state.isSuccess = true ∧ r2.state.isError = true ∧
     r2.preStates.map (fun s => s.isError) = [true, true]) :=
  ⟨rfl, rfl, rfl, rfl⟩

/-- C5 (amended): the claimed invariant holds only for runs that start
with both settled flags clear (in particular the first run of a fresh
entry): then every in-flight snapshot has `isSuccess = isError =
false`, and the settled state satisfies `isSuccess` XOR `isError`.  In
general the success path leaves a previous `isError = true` in place
(only the error path clears `isSuccess`), so after an error-then-
success sequence both flags are true. -/
theorem settle_flags_amended :
    ∀ (arg : JVal) (st0 : EntryState) (ep : EndpointDef)
      (bq : JVal → TransportResult) (cT : Int) (isR : Bool)
      (now now2 : Int),
      st0.isSuccess = false → st0.isError = false →
      (∀ s ∈ (coreFn arg st0 ep bq cT isR now now2).preStates,
        s.isSuccess = false ∧ s.isError = false) ∧
      (((coreFn arg st0 ep bq cT isR now now2).state.isSuccess = true ∧
        (coreFn arg st0 ep bq cT isR now now2).state.isError = false) ∨
       ((coreFn arg st0 ep bq cT isR now now2).state.isSuccess = false ∧
        (coreFn arg st0 ep bq cT isR now now2).state.isError = true)) := by
  intro arg st0 ep bq cT isR now now2 hS hE
  simp only [coreFn]
  cases hF : fetchStage arg { st0 with isLoading := true } ep bq
      (cacheUsable arg { st0 with isLoading := true } isR now) with
  | error exn =>
    constructor
    · intro s hs
      simp only [List.mem_singleton] at hs
      subst hs
      exact ⟨hS, hE⟩
    · exact Or.inr ⟨rfl, rfl⟩
  | ok tup =>
    obtain ⟨data1, err1, stMid, snaps, evs⟩ := tup
    obtain ⟨hmid, hsnaps⟩ :=
      fetchStage_shape arg _ ep bq _ data1 err1 stMid snaps evs hF
    by_cases hT :
        (transformData { st0 with isLoading := true } ep data1).truthy = true
    · constructor
      · intro s hs
        simp only [if_pos hT, List.mem_cons] at hs
        rcases hs with hs | hs
        · subst hs
          exact ⟨hS, hE⟩
        · rcases hsnaps with h | h
          · rw [h] at hs
            simp at hs
          · rw [h] at hs
            simp only [List.mem_singleton] at hs
            subst hs
            exact ⟨hS, hE⟩
      · simp only [if_pos hT]
        rcases hmid with h | h <;> subst h <;>
          exact Or.inl ⟨rfl, hE⟩
    · constructor
      · intro s hs
        simp only [if_neg hT, List.mem_cons] at hs
        rcases hs with hs | hs
        · subst hs
          exact ⟨hS, hE⟩
        · rcases hsnaps with h | h
          · rw [h] at hs
            simp at hs
          · rw [h] at hs
            simp only [List.mem_singleton] at hs
            subst hs
            exact ⟨hS, hE⟩
      · simp only [if_neg hT]
        rcases hmid with h | h <;> subst h <;>
          exact Or.inr ⟨rfl, rfl⟩

/-- C5 witness: the amended invariant evaluated on a fresh entry whose
transport succeeds. -/
theorem settle_flags_amended_witness :
    (∀ s ∈ (coreFn (.vObj [("id", .vNum 1)]) initEntry
        { queryFn := some fun _ => .vStr "/u" }
        (fun _ => { data := .vNum 3, error := .vUndefined })
        1000 false 5 6).preStates,
      s.isSuccess = false ∧ s.isError = false) ∧
    (((coreFn (.vObj [("id", .vNum 1)]) initEntry
        { queryFn := some fun _ => .vStr "/u" }
        (fun _ => { data := .vNum 3, error := .vUndefined })
        1000 false 5 6).state.isSuccess = true ∧
      (coreFn (.vObj [("id", .vNum 1)]) initEntry
        { queryFn := some fun _ => .vStr "/u" }
        (fun _ => { data := .vNum 3, error := .vUndefined })
        1000 false 5 6).state.isError = false) ∨
     ((coreFn (.vObj [("id", .vNum 1)]) initEntry
        { queryFn := some fun _ => .vStr "/u" }
        (fun _ => { data := .vNum 3, error := .vUndefined })
        1000 false 5 6).state.isSuccess = false ∧
      (coreFn (.vObj [("id", .vNum 1)]) initEntry
        { queryFn := some fun _ => .vStr "/u" }
        (fun _ => { data := .vNum 3, error := .vUndefined })
        1000 false 5 6).state.isError = true)) :=
  settle_flags_amended (.vObj [("id", .vNum 1)]) initEntry
    { queryFn := some fun _ => .vStr "/u" }
    (fun _ => { data := .vNum 3, error := .vUndefined })
    1000 false 5 6 rfl rfl

/-! ## C6: the error path -/

/-- C6 counterexample: the error-path `set` does not write `data`, so
after a successful run stored `data = 5`, a later errored run (here
with a changed argument, hence a cache miss) settles with
`isError = true` but `data` still equal to `5` — not `undefined` as
claimed. -/
theorem error_path_data_counterexample :
    (let ep : EndpointDef := { queryFn := some fun _ => .vStr "/u" };
     let bq1 : JVal → TransportResult :=
       fun _ => { data := .vNum 5, error := .vUndefined };
     let bq2 : JVal → TransportResult :=
       fun _ => { data := .vUndefined, error := .vStr "boom" };
     let r1 := coreFn (.vObj [("id", .vNum 1)]) initEntry ep bq1
       1000 false 5 6;
     let r2 := coreFn (.vObj [("id", .vNum 2)]) r1.state ep bq2
       1000 false 7 8;
     r2.state.isError = true ∧ r2.state.error = .vStr "boom" ∧
     r2.state.data = .vNum 5 ∧ r2.result = .error (.vStr "boom")) :=
  ⟨rfl, rfl, rfl, rfl⟩

/-- C6 (amended): on a cache miss whose transport resolves
`\x7berror: E\x7d` (truthy `E`, no data), the entry settles with
`isError = true`, `isSuccess = false`, `error = transformError(E,
previous error)` when the hook is present and `E` otherwise, and
`data` left unchanged from before the run (`null` on a fresh entry,
the previous data otherwise); the run returns that error as its
result. -/
theorem error_path_amended :
    ∀ (arg : JVal) (st0 : EntryState) (ep : EndpointDef)
      (bq : JVal → TransportResult) (cT : Int) (isR : Bool)
      (now now2 : Int) (qf : JVal → JVal) (E : JVal),
      ep.queryFnc = none → ep.queryFn = some qf →
      cacheUsable arg { st0 with isLoading := true } isR now = false →
      bq (buildParams ep qf arg) = { data := .vUndefined, error := E } →
      E.truthy = true →
      (coreFn arg st0 ep bq cT isR now now2).state.isError = true ∧
      (coreFn arg st0 ep bq cT isR now now2).state.isSuccess = false ∧
      (coreFn arg st0 ep bq cT isR now now2).state.error =
        (match ep.transformError with
         | some te => te E st0.error
         | none => E) ∧
      (coreFn arg st0 ep bq cT isR now now2).state.data = st0.data ∧
      (coreFn arg st0 ep bq cT isR now now2).result =
        .error (match ep.transformError with
                | some te => te E st0.error
                | none => E) := by
  intro arg st0 ep bq cT isR now now2 qf E hc hf hmiss hbq hE
  simp only [coreFn]
  rw [hmiss, fetchStage_miss_std arg _ ep bq qf hc hf, hbq]
  simp [transformData, transformErr, settleError, truthy_vNull,
    truthy_vUndefined, hE]

/-- C6 witness: the amended error path evaluated on a fresh entry with
no transformError hook. -/
theorem error_path_amended_witness :
    ((coreFn (.vObj [("id", .vNum 2)]) initEntry
        { queryFn := some fun _ => .vStr "/u" }
        (fun _ => { data := .vUndefined, error := .vStr "boom" })
        1000 false 7 8).state.isError = true ∧
     (coreFn (.vObj [("id", .vNum 2)]) initEntry
        { queryFn := some fun _ => .vStr "/u" }
        (fun _ => { data := .vUndefined, error := .vStr "boom" })
        1000 false 7 8).state.isSuccess = false ∧
     (coreFn (.vObj [("id", .vNum 2)]) initEntry
        { queryFn := some fun _ => .vStr "/u" }
        (fun _ => { data := .vUndefined, error := .vStr "boom" })
        1000 false 7 8).state.data = initEntry.data) := by
  have h := error_path_amended (.vObj [("id", .vNum 2)]) initEntry
    { queryFn := some fun _ => .vStr "/u" }
    (fun _ => { data := .vUndefined, error := .vStr "boom" })
    1000 false 7 8 (fun _ => .vStr "/u") (.vStr "boom")
    rfl rfl (by decide) rfl rfl
  exact ⟨h.1, h.2.1, h.2.2.2.1⟩

/-! ## Run-shape lemmas for whole coreFn executions -/

/-- The external calls of a run are exactly those of its fetch
section. -/
theorem coreFn_events (arg : JVal) (st0 : EntryState) (ep : EndpointDef)
    (bq : JVal → TransportResult) (cT : Int) (isR : Bool) (now now2 : Int)
    (d e : JVal) (stMid : EntryState) (snaps : List EntryState)
    (evs : List CoreEvent)
    (hF : fetchStage arg { st0 with isLoading := true } ep bq
        (cacheUsable arg { st0 with isLoading := true } isR now) =
        Except.ok (d, e, stMid, snaps, evs)) :
    (coreFn arg st0 ep bq cT isR now now2).events = evs := by
  simp only [coreFn]
  rw [hF]
  by_cases hT :
      (transformData { st0 with isLoading := true } ep d).truthy = true <;>
    simp [hT]

/-- The shape of a cache-miss run of a standard endpoint (no override,
no `transformResponse`) whose transport resolves truthy data: one
transport call, success settle, expiry `now2 + cacheTimeout`, argument
stored. -/
theorem coreFn_miss_success (arg : JVal) (st0 : EntryState)
    (ep : EndpointDef) (bq : JVal → TransportResult) (cT : Int)
    (isR : Bool) (now now2 : Int) (qf : JVal → JVal) (dv : JVal)
    (hc : ep.queryFnc = none) (hf : ep.queryFn = some qf)
    (htr : ep.transformResponse = none)
    (hmiss : cacheUsable arg { st0 with isLoading := true } isR now = false)
    (hbq : bq (buildParams ep qf arg) = { data := dv, error := .vUndefined })
    (hdv : dv.truthy = true) :
    coreFn arg st0 ep bq cT isR now now2 =
      { preStates := [{ st0 with isLoading := true },
                      { st0 with isLoading := true, isFetching := true }],
        state := { st0 with
          data := dv,
          isSuccess := true,
          isLoading := false,
          isFetching := false,
          cashExp := now2 + cT,
          arg := arg,
          tags := computeTags ep dv },
        result := .data dv,
        events := [.transportCall (buildParams ep qf arg)] } := by
  simp only [coreFn]
  rw [hmiss, fetchStage_miss_std arg _ ep bq qf hc hf, hbq]
  simp [transformData, htr, hdv, settleSuccess, truthy_vUndefined,
    truthy_vNull]

/-- The shape of a cache-hit run of a standard endpoint with no
`transformResponse` and truthy stored data: no external call, the
stored data is reused and returned, expiry and data unchanged. -/
theorem coreFn_hit (arg : JVal) (st0 : EntryState) (ep : EndpointDef)
    (bq : JVal → TransportResult) (cT : Int) (now now2 : Int)
    (qf : JVal → JVal)
    (hf : ep.queryFn = some qf) (htr : ep.transformResponse = none)
    (hhit : cacheUsable arg { st0 with isLoading := true } false now = true)
    (hd : st0.data.truthy = true) :
    coreFn arg st0 ep bq cT false now now2 =
      { preStates := [{ st0 with isLoading := true }],
        state := { st0 with
          isSuccess := true,
          isLoading := false,
          isFetching := false,
          arg := arg,
          tags := computeTags ep st0.data },
        result := .data st0.data, events := [] } := by
  simp only [coreFn]
  rw [hhit, fetchStage_hit_std arg _ ep bq qf hf]
  simp [transformData, htr, hd, settleSuccess]

/-! ## C1: cache-hit decision and repeated calls -/

/-- C1 counterexample: with a `transformResponse` hook, the hook is
re-applied to the cached data on a cache hit (coreFn lines 155-158 run
on the cache path too), so the second of two identical calls within
the cache window returns a different `data` than the first even though
the transport ran only once: here the transport yields `5`, the hook
adds one, the first call returns `6` but the second returns `7`. -/
theorem cache_hit_retransform_counterexample :
    (let ep : EndpointDef :=
       { queryFn := some fun _ => .vStr "/users",
         transformResponse := some fun d _ =>
           match d with
           | .vNum n => .vNum (n + 1)
           | x => x };
     let bq : JVal → TransportResult :=
       fun _ => { data := .vNum 5, error := .vUndefined };
     let arg := JVal.vObj [("page", .vNum 1)];
     let r1 := coreFn arg initEntry ep bq 30000 false 100 101;
     let r2 := coreFn arg r1.state ep bq 30000 false 102 103;
     r1.events = [.transportCall (.vStr "/users")] ∧
     r1.result = .data (.vNum 6) ∧
     r2.events = [] ∧
     r2.result = .data (.vNum 7) ∧
     QueryResult.data (.vNum 7) ≠ QueryResult.data (.vNum 6)) :=
  ⟨rfl, rfl, rfl, rfl, by intro h; injection h with h2; injection h2 with h3; omega⟩

/-- C1 (amended): for a standard endpoint (a `query` builder, no
custom `queryFnc`) run with `forceRefetch = false`: (i) the run skips
the transport entirely iff the stored argument's serialization
(`JSON.stringify(x || \x7b\x7d)`) equals the call argument's and the
stored expiry is `≥` the clock; (ii) on such a hit (with no
`transformResponse` hook and truthy cached data) the stored data is
returned unchanged, with expiry and data untouched; (iii) two calls
with the same argument, the second within `cacheTimeoutMs` of the
first call's settlement, issue exactly one transport call, and — when
the endpoint has no `transformResponse` hook — both return the same
data.  (With a `transformResponse` hook the hook is re-applied to the
cached data on the hit, so the second result is
`transformResponse(first, first)`.) -/
theorem cache_hit_amended :
    (∀ (arg : JVal) (st0 : EntryState) (ep : EndpointDef)
        (bq : JVal → TransportResult) (cT now now2 : Int)
        (qf : JVal → JVal),
      ep.queryFnc = none → ep.queryFn = some qf →
      ((coreFn arg st0 ep bq cT false now now2).events = [] ↔
        (serializeArg st0.arg = serializeArg arg ∧ now ≤ st0.cashExp))) ∧
    (∀ (arg : JVal) (st0 : EntryState) (ep : EndpointDef)
        (bq : JVal → TransportResult) (cT now now2 : Int)
        (qf : JVal → JVal),
      ep.queryFn = some qf → ep.transformResponse = none →
      cacheUsable arg { st0 with isLoading := true } false now = true →
      st0.data.truthy = true →
      (coreFn arg st0 ep bq cT false now now2).result = .data st0.data ∧
      (coreFn arg st0 ep bq cT false now now2).state.data = st0.data ∧
      (coreFn arg st0 ep bq cT false now now2).state.cashExp =
        st0.cashExp ∧
      (coreFn arg st0 ep bq cT false now now2).events = []) ∧
    (∀ (arg : JVal) (ep : EndpointDef) (bq : JVal → TransportResult)
        (qf : JVal → JVal) (dv : JVal) (T t1 t12 t2 t22 : Int),
      ep.queryFnc = none → ep.queryFn = some qf →
      ep.transformResponse = none →
      bq (buildParams ep qf arg) = { data := dv, error := .vUndefined } →
      dv.truthy = true → 0 < t1 → t2 ≤ t12 + T →
      (coreFn arg initEntry ep bq T false t1 t12).events =
        [CoreEvent.transportCall (buildParams ep qf arg)] ∧
      (coreFn arg initEntry ep bq T false t1 t12).result = .data dv ∧
      (coreFn arg (coreFn arg initEntry ep bq T false t1 t12).state
         ep bq T false t2 t22).events = [] ∧
      (coreFn arg (coreFn arg initEntry ep bq T false t1 t12).state
         ep bq T false t2 t22).result = .data dv) := by
  refine ⟨?_, ?_, ?_⟩
  · intro arg st0 ep bq cT now now2 qf hc hf
    by_cases hcache :
        cacheUsable arg { st0 with isLoading := true } false now = true
    · have hF : fetchStage arg { st0 with isLoading := true } ep bq
          (cacheUsable arg { st0 with isLoading := true } false now) =
          Except.ok (({ st0 with isLoading := true }).data, JVal.vNull,
            { st0 with isLoading := true }, [], []) := by
        rw [hcache]
        exact fetchStage_hit_std arg _ ep bq qf hf
      rw [coreFn_events arg st0 ep bq cT false now now2 _ _ _ _ _ hF]
      have hcond :=
        (cacheUsable_eq_true_iff arg { st0 with isLoading := true } now).mp
          hcache
      exact iff_of_true rfl hcond
    · have hcf : cacheUsable arg { st0 with isLoading := true } false now =
          false := by
        cases hx : cacheUsable arg { st0 with isLoading := true } false now
        · rfl
        · exact absurd hx hcache
      have hF : fetchStage arg { st0 with isLoading := true } ep bq
          (cacheUsable arg { st0 with isLoading := true } false now) =
          Except.ok
            ((if (bq (buildParams ep qf arg)).data.truthy
                then (bq (buildParams ep qf arg)).data else JVal.vNull),
             (if (bq (buildParams ep qf arg)).error.truthy
                then (bq (buildParams ep qf arg)).error else JVal.vNull),
             { st0 with isLoading := true, isFetching := true },
             [{ st0 with isLoading := true, isFetching := true }],
             [CoreEvent.transportCall (buildParams ep qf arg)]) := by
        rw [hcf]
        exact fetchStage_miss_std arg _ ep bq qf hc hf
      rw [coreFn_events arg st0 ep bq cT false now now2 _ _ _ _ _ hF]
      refine iff_of_false (by simp) ?_
      intro hcond
      exact absurd
        ((cacheUsable_eq_true_iff arg { st0 with isLoading := true } now).mpr
          hcond) hcache
  · intro arg st0 ep bq cT now now2 qf hf htr hhit hd
    rw [coreFn_hit arg st0 ep bq cT now now2 qf hf htr hhit hd]
    exact ⟨rfl, rfl, rfl, rfl⟩
  · intro arg ep bq qf dv T t1 t12 t2 t22 hc hf htr hbq hdv ht1 ht2
    have hm1 : cacheUsable arg { initEntry with isLoading := true } false t1 =
        false := cacheUsable_expired arg _ t1 ht1 false
    have h1 := coreFn_miss_success arg initEntry ep bq T false t1 t12 qf dv
      hc hf htr hm1 hbq hdv
    have hhit : cacheUsable arg
        { (coreFn arg initEntry ep bq T false t1 t12).state with
          isLoading := true } false t2 = true := by
      apply (cacheUsable_eq_true_iff arg _ t2).mpr
      rw [h1]
      exact ⟨rfl, ht2⟩
    have hd2 : (coreFn arg initEntry ep bq T false t1 t12).state.data.truthy =
        true := by
      rw [h1]
      exact hdv
    have h2 := coreFn_hit arg (coreFn arg initEntry ep bq T false t1 t12).state
      ep bq T t2 t22 qf hf htr hhit hd2
    refine ⟨?_, ?_, ?_, ?_⟩
    · rw [h1]
    · rw [h1]
    · rw [h2]
    · rw [h2, h1]

/-- C1 witness: the amended statement evaluated on a concrete plain
endpoint: the first call at clock 100 (settling at 101, timeout 30000)
hits the transport once; the second call at clock 102 is within the
window, makes no transport call, and returns the same data. -/
theorem cache_hit_amended_witness :
    ((coreFn (.vObj [("page", .vNum 1)]) initEntry
        { queryFn := some fun _ => .vStr "/users" }
        (fun _ => { data := .vNum 5, error := .vUndefined })
        30000 false 100 101).events =
      [CoreEvent.transportCall
        (buildParams { queryFn := some fun _ => .vStr "/users" }
          (fun _ => .vStr "/users") (.vObj [("page", .vNum 1)]))] ∧
     (coreFn (.vObj [("page", .vNum 1)]) initEntry
        { queryFn := some fun _ => .vStr "/users" }
        (fun _ => { data := .vNum 5, error := .vUndefined })
        30000 false 100 101).result = .data (.vNum 5) ∧
     (coreFn (.vObj [("page", .vNum 1)])
        (coreFn (.vObj [("page", .vNum 1)]) initEntry
          { queryFn := some fun _ => .vStr "/users" }
          (fun _ => { data := .vNum 5, error := .vUndefined })
          30000 false 100 101).state
        { queryFn := some fun _ => .vStr "/users" }
        (fun _ => { data := .vNum 5, error := .vUndefined })
        30000 false 102 103).events = [] ∧
     (coreFn (.vObj [("page", .vNum 1)])
        (coreFn (.vObj [("page", .vNum 1)]) initEntry
          { queryFn := some fun _ => .vStr "/users" }
          (fun _ => { data := .vNum 5, error := .vUndefined })
          30000 false 100 101).state
        { queryFn := some fun _ => .vStr "/users" }
        (fun _ => { data := .vNum 5, error := .vUndefined })
        30000 false 102 103).result = .data (.vNum 5)) :=
  cache_hit_amended.2.2 (.vObj [("page", .vNum 1)])
    { queryFn := some fun _ => .vStr "/users" }
    (fun _ => { data := .vNum 5, error := .vUndefined })
    (fun _ => .vStr "/users") (.vNum 5) 30000 100 101 102 103
    rfl rfl rfl rfl rfl (by norm_num) (by norm_num)

/-! ## C4: mutations -/

/-- C4 counterexample: the mutation branch of createApi builds its
`query` closure with cache timeout `0` and `isRefetch = false` — not
`forceRefetch = true` as claimed.  With zero timeout the first
invocation stores `cashExp = settleTime`, so a second invocation with
the same argument in the same millisecond (`cashExp >= now` holds) is
served from cache: the transport is not called, refuting "a mutation
result is never served from cache".  A run with `isRefetch = true` at
the same clock would have called the transport. -/
theorem mutation_cache_served_counterexample :
    (let ep : EndpointDef := { queryFn := some fun _ => .vStr "/posts" };
     let bq : JVal → TransportResult :=
       fun _ => { data := .vNum 7, error := .vUndefined };
     let arg := JVal.vObj [("t", .vStr "x")];
     let r1 := mutationInvoke arg initEntry ep bq 5 5;
     let r2 := mutationInvoke arg r1.state ep bq 5 5;
     r1.events = [.transportCall (.vStr "/posts")] ∧
     r2.events = [] ∧
     r2.result = .data (.vNum 7) ∧
     (coreFn arg r1.state ep bq 0 true 5 5).events =
       [.transportCall (.vStr "/posts")]) :=
  ⟨rfl, rfl, rfl, rfl⟩

/-- C4 (amended): a mutation's `invoke(arg)` triggers the pipeline
with zero cache timeout and `forceRefetch = false` (not `true`);
consequently two sequential invocations of the same mutation with
identical arguments both call the transport provided the second
starts strictly after the millisecond in which the first settled —
within the same millisecond the second invocation is served from the
just-written cache entry. -/
theorem mutation_invoke_amended :
    (∀ (arg : JVal) (st0 : EntryState) (ep : EndpointDef)
        (bq : JVal → TransportResult) (now now2 : Int),
      mutationInvoke arg st0 ep bq now now2 =
        coreFn arg st0 ep bq 0 false now now2) ∧
    (∀ (arg : JVal) (ep : EndpointDef) (bq : JVal → TransportResult)
        (qf : JVal → JVal) (dv : JVal) (t1 t12 t2 t22 : Int),
      ep.queryFnc = none → ep.queryFn = some qf →
      ep.transformResponse = none →
      bq (buildParams ep qf arg) = { data := dv, error := .vUndefined } →
      dv.truthy = true → 0 < t1 → t12 < t2 →
      (mutationInvoke arg initEntry ep bq t1 t12).events =
        [CoreEvent.transportCall (buildParams ep qf arg)] ∧
      (mutationInvoke arg (mutationInvoke arg initEntry ep bq t1 t12).state
          ep bq t2 t22).events =
        [CoreEvent.transportCall (buildParams ep qf arg)]) := by
  constructor
  · intro arg st0 ep bq now now2
    rfl
  · intro arg ep bq qf dv t1 t12 t2 t22 hc hf htr hbq hdv ht1 ht2
    have hm1 : cacheUsable arg { initEntry with isLoading := true } false t1 =
        false := cacheUsable_expired arg _ t1 ht1 false
    have h1 := coreFn_miss_success arg initEntry ep bq 0 false t1 t12 qf dv
      hc hf htr hm1 hbq hdv
    have hm2 : cacheUsable arg
        { (coreFn arg initEntry ep bq 0 false t1 t12).state with
          isLoading := true } false t2 = false := by
      apply cacheUsable_expired
      rw [h1]
      show t12 + 0 < t2
      omega
    have h2 := coreFn_miss_success arg
      (coreFn arg initEntry ep bq 0 false t1 t12).state ep bq 0 false t2 t22
      qf dv hc hf htr hm2 hbq hdv
    constructor
    · show (coreFn arg initEntry ep bq 0 false t1 t12).events = _
      rw [h1]
    · show (coreFn arg (coreFn arg initEntry ep bq 0 false t1 t12).state
          ep bq 0 false t2 t22).events = _
      rw [h2]

/-- C4 witness: the amended statement on a concrete mutation — first
invoke settles at clock 5, second invoke starts at clock 6, and both
hit the transport. -/
theorem mutation_invoke_amended_witness :
    ((mutationInvoke (.vObj [("t", .vStr "x")]) initEntry
        { queryFn := some fun _ => .vStr "/posts" }
        (fun _ => { data := .vNum 7, error := .vUndefined }) 5 5).events =
      [CoreEvent.transportCall
        (buildParams { queryFn := some fun _ => .vStr "/posts" }
          (fun _ => .vStr "/posts") (.vObj [("t", .vStr "x")]))] ∧
     (mutationInvoke (.vObj [("t", .vStr "x")])
        (mutationInvoke (.vObj [("t", .vStr "x")]) initEntry
          { queryFn := some fun _ => .vStr "/posts" }
          (fun _ => { data := .vNum 7, error := .vUndefined }) 5 5).state
        { queryFn := some fun _ => .vStr "/posts" }
        (fun _ => { data := .vNum 7, error := .vUndefined }) 6 6).events =
      [CoreEvent.transportCall
        (buildParams { queryFn := some fun _ => .vStr "/posts" }
          (fun _ => .vStr "/posts") (.vObj [("t", .vStr "x")]))]) :=
  (mutation_invoke_amended.2 (.vObj [("t", .vStr "x")])
    { queryFn := some fun _ => .vStr "/posts" }
    (fun _ => { data := .vNum 7, error := .vUndefined })
    (fun _ => .vStr "/posts") (.vNum 7) 5 5 6 6
    rfl rfl rfl rfl rfl (by norm_num) (by norm_num))
